import Mathlib

/-!
Shallow embedding of the drone-track terrain pipeline
(AdvancedDroneVisualization): centroid computation, the local planar
projection, the batched elevation fetch with its synthetic fallback, and
the surface re-gridder that turns scattered elevation samples into a
rectangular height field.  Numbers are modelled as exact rationals; the
trigonometric primitives of the fallback formula are passed in as
function parameters standing for the host Math.sin / Math.cos.
-/

/-- A GPS track point: latitude and longitude in degrees, altitude in meters. -/
structure TrackPoint where
  latitude : ℚ
  longitude : ℚ
  altitude : ℚ
deriving DecidableEq, Repr

/-- The projection origin: mean latitude/longitude of the track. -/
structure Centroid where
  latitude : ℚ
  longitude : ℚ
deriving DecidableEq, Repr

/-- A point in the local planar frame, in meters. -/
structure LocalPoint where
  x : ℚ
  y : ℚ
  z : ℚ
deriving DecidableEq, Repr

/-- One elevation sample as stored in elevationData. -/
structure ElevationDatum where
  longitude : ℚ
  latitude : ℚ
  elevation : ℚ
deriving DecidableEq, Repr

/-- A geodetic sample location sent to the elevation service. -/
structure Location where
  latitude : ℚ
  longitude : ℚ
deriving DecidableEq, Repr

/-- centerPoint: arithmetic mean of the track latitudes and longitudes. -/
def centerPoint (trackPoints : List TrackPoint) : Centroid :=
  { latitude := (trackPoints.map (·.latitude)).sum / trackPoints.length,
    longitude := (trackPoints.map (·.longitude)).sum / trackPoints.length }

/-- The fixed linear scale used by convertToRelativeCoords: rough meters
per degree at the equator. -/
def scale : ℚ := 111320

/-- convertToRelativeCoords: geodetic to local planar coordinates relative
to the centroid; the elevation argument passes through as z. -/
def convertToRelativeCoords (center : Centroid) (lng lat : ℚ) (elev : ℚ) : LocalPoint :=
  { x := (lng - center.longitude) * scale,
    y := (lat - center.latitude) * scale,
    z := elev }

/-- Projection of one elevation sample into the local frame, as done at
the top of terrainData. -/
def relPoint (center : Centroid) (p : ElevationDatum) : LocalPoint :=
  convertToRelativeCoords center p.longitude p.latitude p.elevation

/-- The distinct values of a list, sorted ascending (Array.from(new Set(.)).sort). -/
def uniqueSorted (l : List ℚ) : List ℚ :=
  l.toFinset.sort (· ≤ ·)

/-- One cell of the rebuilt height grid: exact-coordinate match first,
else the mean of samples within a 2x-resolution window, else 0. -/
def zCell (points : List LocalPoint) (terrainResolution : ℚ) (xv yv : ℚ) : ℚ :=
  match points.find? (fun p => decide (p.x = xv ∧ p.y = yv)) with
  | some matchingPoint => matchingPoint.z
  | none =>
    let nearbyPoints := points.filter (fun p =>
      decide (|p.x - xv| < terrainResolution * 2 ∧ |p.y - yv| < terrainResolution * 2))
    if nearbyPoints.length > 0 then
      (nearbyPoints.map (·.z)).sum / nearbyPoints.length
    else 0

/-- The rectangular height field handed to the surface renderer. -/
structure HeightField where
  x : List ℚ
  y : List ℚ
  z : List (List ℚ)
deriving DecidableEq, Repr

/-- terrainData: re-grid scattered elevation samples onto the rectangle
spanned by the distinct projected x and y values. -/
def terrainData (center : Centroid) (terrainResolution : ℚ)
    (elevationData : List ElevationDatum) : HeightField :=
  if elevationData = [] then ⟨[], [], [[]]⟩
  else
    let points := elevationData.map (relPoint center)
    let uniqueX := uniqueSorted (points.map (·.x))
    let uniqueY := uniqueSorted (points.map (·.y))
    ⟨uniqueX, uniqueY,
     uniqueY.map (fun yv => uniqueX.map (fun xv => zCell points terrainResolution xv yv))⟩

/-- The synthetic fallback elevation formula: three sine/cosine products
at decreasing frequency and amplitude.  msin and mcos stand for the host
Math.sin and Math.cos. -/
def simulatedElevation (msin mcos : ℚ → ℚ) (x y : ℚ) : ℚ :=
  msin (x * 0.005) * mcos (y * 0.005) * 30 +
  msin (x * 0.02) * mcos (y * 0.02) * 10 +
  msin (x * 0.05) * mcos (y * 0.05) * 5

/-- simulatedData: the fallback branch of fetchElevationData, one
synthetic elevation per grid point from its projected local position. -/
def simulatedData (msin mcos : ℚ → ℚ) (center : Centroid)
    (gridPoints : List Location) : List ElevationDatum :=
  gridPoints.map fun p =>
    { longitude := p.longitude,
      latitude := p.latitude,
      elevation := simulatedElevation msin mcos
        ((p.longitude - center.longitude) * 111320)
        ((p.latitude - center.latitude) * 111320) }

/-- Fixed batch size of the elevation fetch loop. -/
def BATCH_SIZE : ℕ := 100

/-- What one HTTP round trip to the elevation service can yield. -/
inductive BatchResponse where
  | ok (results : List ElevationDatum)
  | httpError (status : ℕ)
  | malformed
deriving DecidableEq, Repr

/-- Observable events of the fetch loop: one network request per batch,
and the fixed rate-limiting sleep. -/
inductive FetchEvent where
  | request (batch : List Location)
  | delay (ms : ℕ)
deriving DecidableEq, Repr

/-- Whether a service response has a success status and a well-formed body. -/
def respOk : BatchResponse → Bool
  | .ok _ => true
  | _ => false

/-- The results carried by a successful response (empty otherwise). -/
def respResults : BatchResponse → List ElevationDatum
  | .ok rs => rs
  | _ => []

/-- Split a list into consecutive chunks (locations.slice(i, i + n)). -/
def chunksOf (n : ℕ) : List α → List (List α)
  | [] => []
  | x :: xs => (x :: xs.take (n - 1)) :: chunksOf n (xs.drop (n - 1))
termination_by l => l.length
decreasing_by
  simp only [List.length_cons, List.length_drop]
  omega

/-- The sequential batch loop of fetchElevationData, modelled as a pure
function of the service behaviour: for each batch in order it emits a
request event; a successful batch contributes its results and is followed
by the fixed 100 ms delay; any failed batch throws, ending the loop with
no further events and no accumulated results. -/
def processBatches (svc : ℕ → List Location → BatchResponse) :
    ℕ → List (List Location) → List FetchEvent × Option (List ElevationDatum)
  | _, [] => ([], some [])
  | i, b :: bs =>
    match svc i b with
    | .ok results =>
      let rest := processBatches svc (i + 1) bs
      (.request b :: .delay 100 :: rest.1,
       match rest.2 with
       | some allResults => some (results ++ allResults)
       | none => none)
    | _ => ([.request b], none)

/-- The error message set when the fetch falls back to simulated terrain. -/
def fetchErrorMessage : String :=
  "Failed to fetch elevation data. Using simulated terrain instead."

/-- The state fetchElevationData leaves behind: the stored elevation data
and the degraded-mode notice. -/
structure FetchOutcome where
  elevationData : List ElevationDatum
  errorMessage : Option String
deriving DecidableEq, Repr

/-- fetchElevationData: batched fetch with total fallback.  On success the
accumulated service results are stored and no notice is raised; on any
failure the whole result set is the synthetic fallback, one entry per grid
point, and the degraded-mode notice is active. -/
def fetchElevationData (svc : ℕ → List Location → BatchResponse)
    (msin mcos : ℚ → ℚ) (center : Centroid) (gridPoints : List Location) : FetchOutcome :=
  match (processBatches svc 0 (chunksOf BATCH_SIZE gridPoints)).2 with
  | some allResults => ⟨allResults, none⟩
  | none => ⟨simulatedData msin mcos center gridPoints, some fetchErrorMessage⟩

/-- The event trace of one fetchElevationData run. -/
def fetchTrace (svc : ℕ → List Location → BatchResponse)
    (gridPoints : List Location) : List FetchEvent :=
  (processBatches svc 0 (chunksOf BATCH_SIZE gridPoints)).1

/-- The component state a completing resolve writes into. -/
structure UIState where
  elevationData : List ElevationDatum
  errorMessage : Option String
deriving DecidableEq, Repr

/-- setElevationData: the completion handler stores its results
unconditionally, with no staleness token or guard. -/
def setElevationData (s : UIState) (d : List ElevationDatum) : UIState :=
  { s with elevationData := d }

/-! ## Helper lemmas -/

theorem min?_spec (l : List ℚ) (m : ℚ) (h : l.min? = some m) : m ∈ l ∧ ∀ x ∈ l, m ≤ x := by
  haveI anti : Std.Antisymm fun x1 x2 : ℚ => x1 ≤ x2 := ⟨fun h1 h2 => le_antisymm h1 h2⟩
  rw [List.min?_eq_some_iff (fun a => le_refl a) (fun a b => min_choice a b)
    (fun a b c => le_min_iff)] at h
  exact h

theorem max?_spec (l : List ℚ) (m : ℚ) (h : l.max? = some m) : m ∈ l ∧ ∀ x ∈ l, x ≤ m := by
  haveI anti : Std.Antisymm fun x1 x2 : ℚ => x1 ≤ x2 := ⟨fun h1 h2 => le_antisymm h1 h2⟩
  rw [List.max?_eq_some_iff (fun a => le_refl a) (fun a b => max_choice a b)
    (fun a b c => max_le_iff)] at h
  exact h

theorem length_mul_le_sum (l : List ℚ) (a : ℚ) (h : ∀ x ∈ l, a ≤ x) :
    (l.length : ℚ) * a ≤ l.sum := by
  induction l with
  | nil => simp
  | cons x xs ih =>
    simp only [List.length_cons, List.sum_cons, Nat.cast_succ, add_mul, one_mul]
    have hx := h x (by simp)
    have := ih (fun y hy => h y (by simp [hy]))
    linarith

theorem sum_le_length_mul (l : List ℚ) (b : ℚ) (h : ∀ x ∈ l, x ≤ b) :
    l.sum ≤ (l.length : ℚ) * b := by
  induction l with
  | nil => simp
  | cons x xs ih =>
    simp only [List.length_cons, List.sum_cons, Nat.cast_succ, add_mul, one_mul]
    have hx := h x (by simp)
    have := ih (fun y hy => h y (by simp [hy]))
    linarith

theorem le_mean (l : List ℚ) (hne : l ≠ []) (a : ℚ) (h : ∀ x ∈ l, a ≤ x) :
    a ≤ l.sum / l.length := by
  have hlen : (0 : ℚ) < l.length := by
    have : l.length ≠ 0 := by simpa using hne
    exact_mod_cast Nat.pos_of_ne_zero this
  rw [le_div_iff₀ hlen]
  have := length_mul_le_sum l a h
  linarith

theorem mean_le (l : List ℚ) (hne : l ≠ []) (b : ℚ) (h : ∀ x ∈ l, x ≤ b) :
    l.sum / l.length ≤ b := by
  have hlen : (0 : ℚ) < l.length := by
    have : l.length ≠ 0 := by simpa using hne
    exact_mod_cast Nat.pos_of_ne_zero this
  rw [div_le_iff₀ hlen]
  have := sum_le_length_mul l b h
  linarith

/-! ## Claim theorems -/

/-- C6: convertToRelativeCoords is origin-preserving and linear with the
single fixed constant scale; the elevation argument passes through
unchanged as the vertical coordinate. -/
theorem convertToRelativeCoords_linear (c : Centroid) (lng lat elev : ℚ) :
    convertToRelativeCoords c c.longitude c.latitude 0 = ⟨0, 0, 0⟩ ∧
    (convertToRelativeCoords c lng lat elev).x = (lng - c.longitude) * scale ∧
    (convertToRelativeCoords c lng lat elev).y = (lat - c.latitude) * scale ∧
    (convertToRelativeCoords c lng lat elev).z = elev := by
  refine ⟨?_, rfl, rfl, rfl⟩
  simp [convertToRelativeCoords]

/-- C7: terrainData on no samples yields the empty height field with a
single empty row; on a single sample it yields the 1x1 field holding that
sample elevation at its projected coordinates. -/
theorem terrainData_empty_and_single (c : Centroid) (res : ℚ) (s : ElevationDatum) :
    terrainData c res [] = ⟨[], [], [[]]⟩ ∧
    terrainData c res [s] = ⟨[(relPoint c s).x], [(relPoint c s).y], [[s.elevation]]⟩ := by
  constructor
  · rfl
  · simp [terrainData, uniqueSorted, zCell, relPoint, convertToRelativeCoords]

/-- C8: the centroid is the independent arithmetic mean of latitudes and
longitudes and lies inside the closed bounding box of the track extremes. -/
theorem centerPoint_mean_and_bbox (pts : List TrackPoint) (hne : pts ≠ [])
    (lmin lmax gmin gmax : ℚ)
    (h1 : (pts.map (·.latitude)).min? = some lmin)
    (h2 : (pts.map (·.latitude)).max? = some lmax)
    (h3 : (pts.map (·.longitude)).min? = some gmin)
    (h4 : (pts.map (·.longitude)).max? = some gmax) :
    (centerPoint pts).latitude = (pts.map (·.latitude)).sum / pts.length ∧
    (centerPoint pts).longitude = (pts.map (·.longitude)).sum / pts.length ∧
    lmin ≤ (centerPoint pts).latitude ∧ (centerPoint pts).latitude ≤ lmax ∧
    gmin ≤ (centerPoint pts).longitude ∧ (centerPoint pts).longitude ≤ gmax := by
  have hmapLat : pts.map (·.latitude) ≠ [] := by simpa using hne
  have hmapLng : pts.map (·.longitude) ≠ [] := by simpa using hne
  have hlenLat : (pts.map (·.latitude)).length = pts.length := List.length_map _ _
  have hlenLng : (pts.map (·.longitude)).length = pts.length := List.length_map _ _
  refine ⟨rfl, rfl, ?_, ?_, ?_, ?_⟩
  · have := le_mean (pts.map (·.latitude)) hmapLat lmin (min?_spec _ _ h1).2
    rw [hlenLat] at this
    exact this
  · have := mean_le (pts.map (·.latitude)) hmapLat lmax (max?_spec _ _ h2).2
    rw [hlenLat] at this
    exact this
  · have := le_mean (pts.map (·.longitude)) hmapLng gmin (min?_spec _ _ h3).2
    rw [hlenLng] at this
    exact this
  · have := mean_le (pts.map (·.longitude)) hmapLng gmax (max?_spec _ _ h4).2
    rw [hlenLng] at this
    exact this

/-- Witness for C8 on a concrete two-point track. -/
theorem centerPoint_mean_and_bbox_witness :
    (([⟨1, 5, 0⟩, ⟨3, 7, 0⟩] : List TrackPoint) ≠ []) ∧
    ((1 : ℚ) ≤ (centerPoint [⟨1, 5, 0⟩, ⟨3, 7, 0⟩]).latitude ∧
      (centerPoint [⟨1, 5, 0⟩, ⟨3, 7, 0⟩]).latitude ≤ 3 ∧
      (5 : ℚ) ≤ (centerPoint [⟨1, 5, 0⟩, ⟨3, 7, 0⟩]).longitude ∧
      (centerPoint [⟨1, 5, 0⟩, ⟨3, 7, 0⟩]).longitude ≤ 7) :=
  ⟨by decide,
    by
      have h := centerPoint_mean_and_bbox [⟨1, 5, 0⟩, ⟨3, 7, 0⟩] (by decide) 1 3 5 7
        (by decide) (by decide) (by decide) (by decide)
      exact ⟨h.2.2.1, h.2.2.2.1, h.2.2.2.2.1, h.2.2.2.2.2⟩⟩

theorem terrainData_ne_empty (c : Centroid) (res : ℚ) (eld : List ElevationDatum)
    (hne : eld ≠ []) :
    terrainData c res eld =
      ⟨uniqueSorted ((eld.map (relPoint c)).map (·.x)),
       uniqueSorted ((eld.map (relPoint c)).map (·.y)),
       (uniqueSorted ((eld.map (relPoint c)).map (·.y))).map (fun yv =>
         (uniqueSorted ((eld.map (relPoint c)).map (·.x))).map (fun xv =>
           zCell (eld.map (relPoint c)) res xv yv))⟩ := by
  simp [terrainData, hne]

theorem terrainData_cell_zCell (c : Centroid) (res : ℚ) (eld : List ElevationDatum)
    (i j : ℕ) (hi : i < (terrainData c res eld).y.length)
    (hj : j < (terrainData c res eld).x.length) :
    ((terrainData c res eld).z.getD i []).getD j 0 =
      zCell (eld.map (relPoint c)) res
        ((terrainData c res eld).x.getD j 0) ((terrainData c res eld).y.getD i 0) := by
  have hne : eld ≠ [] := by
    intro h
    subst h
    simp [terrainData] at hi
  set pts := eld.map (relPoint c) with hpts
  set xs := uniqueSorted (pts.map (·.x)) with hxsdef
  set ys := uniqueSorted (pts.map (·.y)) with hysdef
  have hx : (terrainData c res eld).x = xs := by rw [terrainData_ne_empty c res eld hne]
  have hy : (terrainData c res eld).y = ys := by rw [terrainData_ne_empty c res eld hne]
  have hz : (terrainData c res eld).z =
      ys.map (fun yv => xs.map (fun xv => zCell pts res xv yv)) := by
    rw [terrainData_ne_empty c res eld hne]
  rw [hy] at hi
  rw [hx] at hj
  rw [hx, hy, hz]
  have e1 : (ys.map (fun yv => xs.map (fun xv => zCell pts res xv yv))).getD i [] =
      xs.map (fun xv => zCell pts res xv ys[i]) := by
    rw [List.getD_eq_getElem _ _ (by simpa using hi), List.getElem_map]
  have e2 : (xs.map (fun xv => zCell pts res xv ys[i])).getD j 0 =
      zCell pts res xs[j] ys[i] := by
    rw [List.getD_eq_getElem _ _ (by simpa using hj), List.getElem_map]
  have e3 : xs.getD j 0 = xs[j] := List.getD_eq_getElem _ _ hj
  have e4 : ys.getD i 0 = ys[i] := List.getD_eq_getElem _ _ hi
  rw [e1, e2, e3, e4]

/-- C1: for every cell (yi, xj) of the rebuilt height field, if some
projected sample matches xs[j] and ys[i] exactly the cell holds that
sample elevation; otherwise, if samples lie strictly within
2 * resolution of the cell in both coordinates, the cell holds the
arithmetic mean of their elevations; otherwise it holds 0. -/
theorem terrainData_cell_rule (c : Centroid) (res : ℚ) (eld : List ElevationDatum)
    (i j : ℕ) (hi : i < (terrainData c res eld).y.length)
    (hj : j < (terrainData c res eld).x.length)
    (points : List LocalPoint) (hpoints : points = eld.map (relPoint c))
    (xv yv : ℚ) (hxv : xv = (terrainData c res eld).x.getD j 0)
    (hyv : yv = (terrainData c res eld).y.getD i 0)
    (cell : ℚ) (hcell : cell = ((terrainData c res eld).z.getD i []).getD j 0)
    (nearby : List LocalPoint)
    (hnearby : nearby = points.filter (fun p =>
      decide (|p.x - xv| < res * 2 ∧ |p.y - yv| < res * 2))) :
    ((∃ p ∈ points, p.x = xv ∧ p.y = yv) →
        ∃ p ∈ points, p.x = xv ∧ p.y = yv ∧ cell = p.z) ∧
    ((¬ ∃ p ∈ points, p.x = xv ∧ p.y = yv) → nearby ≠ [] →
        cell = (nearby.map (·.z)).sum / nearby.length) ∧
    ((¬ ∃ p ∈ points, p.x = xv ∧ p.y = yv) → nearby = [] → cell = 0) := by
  have hc : cell = zCell points res xv yv := by
    rw [hcell, hxv, hyv, hpoints, terrainData_cell_zCell c res eld i j hi hj]
  rcases hfind : points.find? (fun p => decide (p.x = xv ∧ p.y = yv)) with _ | q
  · have hnone := List.find?_eq_none.mp hfind
    have hnoex : ¬ ∃ p ∈ points, p.x = xv ∧ p.y = yv := by
      rintro ⟨p, hp, hpx, hpy⟩
      exact hnone p hp (by simp [hpx, hpy])
    refine ⟨fun hex => absurd hex hnoex, ?_, ?_⟩
    · intro _ hnb
      have hlen : nearby.length > 0 := by
        cases nearby with
        | nil => exact absurd rfl hnb
        | cons a l => simp
      rw [hc]
      simp only [zCell, hfind]
      rw [← hnearby]
      simp [hlen]
    · intro _ hnb
      rw [hc]
      simp only [zCell, hfind]
      rw [← hnearby, hnb]
      simp
  · have hq := List.find?_some hfind
    have hqmem := List.mem_of_find?_eq_some hfind
    have hqx : q.x = xv ∧ q.y = yv := by simpa using hq
    refine ⟨fun _ => ⟨q, hqmem, hqx.1, hqx.2, ?_⟩, ?_, ?_⟩
    · rw [hc]
      simp only [zCell, hfind]
    · intro hnoex _
      exact absurd ⟨q, hqmem, hqx.1, hqx.2⟩ hnoex
    · intro hnoex _
      exact absurd ⟨q, hqmem, hqx.1, hqx.2⟩ hnoex

theorem terrainData_eval_single :
    terrainData ⟨0, 0⟩ 10 [⟨0, 0, 7⟩] = ⟨[0], [0], [[7]]⟩ := by
  simp [terrainData, uniqueSorted, zCell, relPoint, convertToRelativeCoords]

/-- Witness for C1 on a one-sample input whose cell has an exact match. -/
theorem terrainData_cell_rule_witness :
    (0 < (terrainData ⟨0, 0⟩ 10 [⟨0, 0, 7⟩]).y.length) ∧
    (0 < (terrainData ⟨0, 0⟩ 10 [⟨0, 0, 7⟩]).x.length) ∧
    (([⟨0, 0, 7⟩] : List ElevationDatum).map (relPoint ⟨0, 0⟩) = [⟨0, 0, 7⟩]) ∧
    (∃ p ∈ ([⟨0, 0, 7⟩] : List LocalPoint), p.x = 0 ∧ p.y = 0 ∧
      (((terrainData ⟨0, 0⟩ 10 [⟨0, 0, 7⟩]).z.getD 0 []).getD 0 0) = p.z) := by
  have hT := terrainData_eval_single
  have h1 : 0 < (terrainData ⟨0, 0⟩ 10 [⟨0, 0, 7⟩]).y.length := by rw [hT]; simp
  have h2 : 0 < (terrainData ⟨0, 0⟩ 10 [⟨0, 0, 7⟩]).x.length := by rw [hT]; simp
  have hp : ([⟨0, 0, 7⟩] : List ElevationDatum).map (relPoint ⟨0, 0⟩) = [⟨0, 0, 7⟩] := by
    simp [relPoint, convertToRelativeCoords]
  have hx : (0 : ℚ) = (terrainData ⟨0, 0⟩ 10 [⟨0, 0, 7⟩]).x.getD 0 0 := by rw [hT]; rfl
  have hy : (0 : ℚ) = (terrainData ⟨0, 0⟩ 10 [⟨0, 0, 7⟩]).y.getD 0 0 := by rw [hT]; rfl
  have happ := terrainData_cell_rule ⟨0, 0⟩ 10 [⟨0, 0, 7⟩] 0 0 h1 h2
    [⟨0, 0, 7⟩] hp.symm 0 0 hx hy _ rfl _ rfl
  refine ⟨h1, h2, hp, happ.1 ⟨⟨0, 0, 7⟩, by simp, rfl, rfl⟩⟩

theorem uniqueSorted_sorted_lt (l : List ℚ) : (uniqueSorted l).Sorted (· < ·) :=
  Finset.sort_sorted_lt _

/-- C3 counterexample: on empty input the re-gridder returns one (empty)
row while ys is empty, so z.length differs from ys.length. -/
theorem heightField_invariant_fails_on_empty :
    (terrainData ⟨0, 0⟩ 10 []).z.length ≠ (terrainData ⟨0, 0⟩ 10 []).y.length := by
  simp [terrainData]

/-- C3 (amended to non-empty inputs): xs and ys are distinct and sorted
ascending, z has one row per y value and one column per x value. -/
theorem heightField_invariants (c : Centroid) (res : ℚ) (eld : List ElevationDatum)
    (hne : eld ≠ []) :
    (terrainData c res eld).x.Sorted (· < ·) ∧
    (terrainData c res eld).y.Sorted (· < ·) ∧
    (terrainData c res eld).z.length = (terrainData c res eld).y.length ∧
    ∀ row ∈ (terrainData c res eld).z, row.length = (terrainData c res eld).x.length := by
  rw [terrainData_ne_empty c res eld hne]
  refine ⟨?_, ?_, by simp, ?_⟩
  · exact uniqueSorted_sorted_lt _
  · exact uniqueSorted_sorted_lt _
  intro row hrow
  simp only [List.mem_map] at hrow
  obtain ⟨yv, _, rfl⟩ := hrow
  simp

/-- Witness for C3 on a concrete two-sample input. -/
theorem heightField_invariants_witness :
    (([⟨1, 2, 5⟩, ⟨3, 4, 6⟩] : List ElevationDatum) ≠ []) ∧
    (terrainData ⟨0, 0⟩ 10 [⟨1, 2, 5⟩, ⟨3, 4, 6⟩]).z.length =
      (terrainData ⟨0, 0⟩ 10 [⟨1, 2, 5⟩, ⟨3, 4, 6⟩]).y.length :=
  ⟨by decide,
    (heightField_invariants ⟨0, 0⟩ 10 [⟨1, 2, 5⟩, ⟨3, 4, 6⟩] (by decide)).2.2.1⟩

theorem mem_relPoint_z (c : Centroid) (eld : List ElevationDatum) (p : LocalPoint)
    (hp : p ∈ eld.map (relPoint c)) : p.z ∈ eld.map (·.elevation) := by
  obtain ⟨s, hs, rfl⟩ := List.mem_map.mp hp
  exact List.mem_map_of_mem _ hs

/-- C10 -/
theorem terrainData_entry_classification (c : Centroid) (res : ℚ) (eld : List ElevationDatum)
    (_hne : eld ≠ []) (i j : ℕ)
    (hi : i < (terrainData c res eld).y.length)
    (hj : j < (terrainData c res eld).x.length)
    (emin emax : ℚ)
    (hmin : (eld.map (·.elevation)).min? = some emin)
    (hmax : (eld.map (·.elevation)).max? = some emax)
    (cell : ℚ) (hcell : cell = ((terrainData c res eld).z.getD i []).getD j 0) :
    ((∃ p ∈ eld, cell = p.elevation) ∨
      (∃ l : List ℚ, l ≠ [] ∧ (∀ e ∈ l, e ∈ eld.map (·.elevation)) ∧
        cell = l.sum / l.length) ∨
      cell = 0) ∧
    min 0 emin ≤ cell ∧ cell ≤ max 0 emax := by
  have hminS := min?_spec _ _ hmin
  have hmaxS := max?_spec _ _ hmax
  have hc : cell = zCell (eld.map (relPoint c)) res
      ((terrainData c res eld).x.getD j 0) ((terrainData c res eld).y.getD i 0) := by
    rw [hcell, terrainData_cell_zCell c res eld i j hi hj]
  set pts := eld.map (relPoint c) with hpts
  set xv := (terrainData c res eld).x.getD j 0
  set yv := (terrainData c res eld).y.getD i 0
  rcases hfind : pts.find? (fun p => decide (p.x = xv ∧ p.y = yv)) with _ | q
  · rw [hc]
    simp only [zCell, hfind]
    set nearby := pts.filter (fun p =>
      decide (|p.x - xv| < res * 2 ∧ |p.y - yv| < res * 2)) with hnb
    rcases Nat.eq_zero_or_pos nearby.length with hlen | hlen
    · simp only [hlen]
      refine ⟨Or.inr (Or.inr rfl), ?_, ?_⟩
      · exact min_le_left 0 emin
      · exact le_max_left 0 emax
    · have hlen' : nearby.length > 0 := hlen
      simp only [if_pos hlen']
      have hmapne : nearby.map (·.z) ≠ [] := by
        intro h
        have hnil : nearby = [] := by simpa using h
        rw [hnil] at hlen'
        simp at hlen'
      have hmem : ∀ e ∈ nearby.map (·.z), e ∈ eld.map (·.elevation) := by
        intro e he
        obtain ⟨p, hp, rfl⟩ := List.mem_map.mp he
        exact mem_relPoint_z c eld p (List.mem_of_mem_filter hp)
      have hlenmap : ((nearby.map (·.z)).length : ℚ) = (nearby.length : ℚ) := by
        simp
      refine ⟨Or.inr (Or.inl ⟨nearby.map (·.z), hmapne, hmem, by rw [← hlenmap]⟩), ?_, ?_⟩
      · have h1 := le_mean (nearby.map (·.z)) hmapne emin
          (fun x hx => hminS.2 x (hmem x hx))
        rw [hlenmap] at h1
        exact le_trans (min_le_right 0 emin) h1
      · have h2 := mean_le (nearby.map (·.z)) hmapne emax
          (fun x hx => hmaxS.2 x (hmem x hx))
        rw [hlenmap] at h2
        exact le_trans h2 (le_max_right 0 emax)
  · have hqmem := List.mem_of_find?_eq_some hfind
    have hcz : cell = q.z := by
      rw [hc]
      simp only [zCell, hfind]
    have hzmem : q.z ∈ eld.map (·.elevation) := mem_relPoint_z c eld q hqmem
    obtain ⟨s, hs, hsz⟩ := List.mem_map.mp hzmem
    refine ⟨Or.inl ⟨s, hs, by rw [hcz, hsz]⟩, ?_, ?_⟩
    · rw [hcz]
      exact le_trans (min_le_right 0 emin) (hminS.2 _ hzmem)
    · rw [hcz]
      exact le_trans (hmaxS.2 _ hzmem) (le_max_right 0 emax)

/-- Witness for C10 on the one-sample input. -/
theorem terrainData_entry_classification_witness :
    (([⟨0, 0, 7⟩] : List ElevationDatum) ≠ []) ∧
    (([⟨0, 0, 7⟩] : List ElevationDatum).map (·.elevation)).min? = some 7 ∧
    (([⟨0, 0, 7⟩] : List ElevationDatum).map (·.elevation)).max? = some 7 ∧
    (min 0 7 ≤ (((terrainData ⟨0, 0⟩ 10 [⟨0, 0, 7⟩]).z.getD 0 []).getD 0 0) ∧
      (((terrainData ⟨0, 0⟩ 10 [⟨0, 0, 7⟩]).z.getD 0 []).getD 0 0) ≤ max 0 7) := by
  have hT := terrainData_eval_single
  have h1 : 0 < (terrainData ⟨0, 0⟩ 10 [⟨0, 0, 7⟩]).y.length := by rw [hT]; simp
  have h2 : 0 < (terrainData ⟨0, 0⟩ 10 [⟨0, 0, 7⟩]).x.length := by rw [hT]; simp
  have happ := terrainData_entry_classification ⟨0, 0⟩ 10 [⟨0, 0, 7⟩] (by decide) 0 0 h1 h2
    7 7 (by decide) (by decide) _ rfl
  exact ⟨by decide, by decide, by decide, happ.2⟩

theorem chunksOf_flatten_bounded (n : ℕ) :
    ∀ (N : ℕ) (l : List α), l.length ≤ N → (chunksOf n l).flatten = l := by
  intro N
  induction N with
  | zero =>
    intro l hl
    have : l = [] := List.eq_nil_of_length_eq_zero (Nat.le_zero.mp hl)
    subst this
    simp [chunksOf]
  | succ N ih =>
    intro l hl
    cases l with
    | nil => simp [chunksOf]
    | cons x xs =>
      rw [chunksOf]
      simp only [List.flatten_cons, List.cons_append]
      rw [ih (xs.drop (n - 1)) (by simp at hl ⊢; omega)]
      simp [List.take_append_drop]

theorem chunksOf_flatten (n : ℕ) (l : List α) : (chunksOf n l).flatten = l :=
  chunksOf_flatten_bounded n l.length l le_rfl

theorem chunksOf_mem_bounded (n : ℕ) (hn : 0 < n) :
    ∀ (N : ℕ) (l : List α), l.length ≤ N →
      ∀ b ∈ chunksOf n l, b ≠ [] ∧ b.length ≤ n := by
  intro N
  induction N with
  | zero =>
    intro l hl
    have : l = [] := List.eq_nil_of_length_eq_zero (Nat.le_zero.mp hl)
    subst this
    simp [chunksOf]
  | succ N ih =>
    intro l hl b hb
    cases l with
    | nil => simp [chunksOf] at hb
    | cons x xs =>
      rw [chunksOf] at hb
      rcases List.mem_cons.mp hb with hb | hb
      · subst hb
        refine ⟨by simp, ?_⟩
        simp only [List.length_cons, List.length_take]
        omega
      · exact ih (xs.drop (n - 1)) (by simp at hl ⊢; omega) b hb

theorem chunksOf_mem (n : ℕ) (hn : 0 < n) (l : List α) :
    ∀ b ∈ chunksOf n l, b ≠ [] ∧ b.length ≤ n :=
  chunksOf_mem_bounded n hn l.length l le_rfl

theorem processBatches_all_ok (svc : ℕ → List Location → BatchResponse) :
    ∀ (bs : List (List Location)) (i : ℕ),
      (∀ k, k < bs.length → respOk (svc (i + k) (bs.getD k [])) = true) →
      processBatches svc i bs =
        ((bs.map fun b => [FetchEvent.request b, FetchEvent.delay 100]).flatten,
         some (((bs.enumFrom i).map fun p => respResults (svc p.1 p.2)).flatten)) := by
  intro bs
  induction bs with
  | nil => intro i _; simp [processBatches]
  | cons b bs ih =>
    intro i h
    have h0 := h 0 (by simp)
    simp only [List.getD_cons_zero, Nat.add_zero] at h0
    rcases hsvc : svc i b with rs | st | _
    all_goals rw [hsvc] at h0
    case httpError => simp [respOk] at h0
    case malformed => simp [respOk] at h0
    have hrest := ih (i + 1) (by
      intro k hk
      have := h (k + 1) (by simpa using Nat.succ_lt_succ hk)
      simpa [Nat.add_assoc, Nat.add_comm 1 k] using this)
    rw [processBatches, hsvc, hrest]
    simp [respResults, hsvc, List.enumFrom]

theorem processBatches_first_fail (svc : ℕ → List Location → BatchResponse) :
    ∀ (bs : List (List Location)) (i j : ℕ), j < bs.length →
      (∀ k, k < j → respOk (svc (i + k) (bs.getD k [])) = true) →
      respOk (svc (i + j) (bs.getD j [])) = false →
      processBatches svc i bs =
        (((bs.take j).map fun b => [FetchEvent.request b, FetchEvent.delay 100]).flatten
          ++ [FetchEvent.request (bs.getD j [])], none) := by
  intro bs
  induction bs with
  | nil => intro i j hj _ _; simp at hj
  | cons b bs ih =>
    intro i j hj hok hfail
    cases j with
    | zero =>
      simp only [List.getD_cons_zero, Nat.add_zero] at hfail
      rcases hsvc : svc i b with rs | st | _
      · rw [hsvc] at hfail; simp [respOk] at hfail
      all_goals
        rw [processBatches, hsvc]
        simp
    | succ j =>
      have h0 := hok 0 (Nat.succ_pos j)
      simp only [List.getD_cons_zero, Nat.add_zero] at h0
      rcases hsvc : svc i b with rs | st | _
      all_goals rw [hsvc] at h0
      case httpError => simp [respOk] at h0
      case malformed => simp [respOk] at h0
      have hrest := ih (i + 1) j (by simpa using Nat.lt_of_succ_lt_succ hj)
        (by
          intro k hk
          have := hok (k + 1) (Nat.succ_lt_succ hk)
          simpa [Nat.add_assoc, Nat.add_comm 1 k] using this)
        (by
          have := hfail
          simpa [Nat.add_assoc, Nat.add_comm 1 j] using this)
      rw [processBatches, hsvc, hrest]
      simp

theorem processBatches_some_length (svc : ℕ → List Location → BatchResponse)
    (hsvc : ∀ k b rs, svc k b = BatchResponse.ok rs → rs.length = b.length) :
    ∀ (bs : List (List Location)) (i : ℕ) (r : List ElevationDatum),
      (processBatches svc i bs).2 = some r → r.length = (bs.map List.length).sum := by
  intro bs
  induction bs with
  | nil =>
    intro i r hr
    simp [processBatches] at hr
    simp [← hr]
  | cons b bs ih =>
    intro i r hr
    rcases hsvc' : svc i b with rs | st | _
    all_goals rw [processBatches, hsvc'] at hr
    case httpError => simp at hr
    case malformed => simp at hr
    simp only at hr
    rcases hrest : (processBatches svc (i + 1) bs).2 with _ | allR
    · rw [hrest] at hr; simp at hr
    · rw [hrest] at hr
      simp only [Option.some.injEq] at hr
      subst hr
      simp only [List.length_append, List.map_cons, List.sum_cons]
      rw [hsvc i b rs hsvc', ih (i + 1) allR hrest]

/-- C2: resolve is total under the documented service contract (one
result per requested location on success): it yields exactly one
elevation sample per input grid point, and the outcome is either entirely
the accumulated provider results with no notice, or entirely the
synthetic fallback covering every input sample with the degraded-mode
notice active, never a mix. -/
theorem fetchElevationData_total (svc : ℕ → List Location → BatchResponse)
    (msin mcos : ℚ → ℚ) (c : Centroid) (gps : List Location)
    (_hne : gps ≠ [])
    (hsvc : ∀ k b rs, svc k b = BatchResponse.ok rs → rs.length = b.length) :
    (fetchElevationData svc msin mcos c gps).elevationData.length = gps.length ∧
    ((∃ rs, (processBatches svc 0 (chunksOf BATCH_SIZE gps)).2 = some rs ∧
        fetchElevationData svc msin mcos c gps = ⟨rs, none⟩) ∨
      fetchElevationData svc msin mcos c gps =
        ⟨simulatedData msin mcos c gps, some fetchErrorMessage⟩) := by
  unfold fetchElevationData
  rcases hpb : (processBatches svc 0 (chunksOf BATCH_SIZE gps)).2 with _ | rs
  · refine ⟨?_, Or.inr rfl⟩
    simp [simulatedData]
  · refine ⟨?_, Or.inl ⟨rs, rfl, rfl⟩⟩
    have hlen := processBatches_some_length svc hsvc (chunksOf BATCH_SIZE gps) 0 rs hpb
    have hflat := congrArg List.length (chunksOf_flatten BATCH_SIZE gps)
    rw [List.length_flatten] at hflat
    simpa [hlen] using hflat

/-- Witness for C2 with a one-point grid and a length-preserving service. -/
theorem fetchElevationData_total_witness :
    (([⟨0, 0⟩] : List Location) ≠ []) ∧
    (fetchElevationData
        (fun _ b => BatchResponse.ok (b.map fun p => ⟨p.longitude, p.latitude, 5⟩))
        (fun _ => 0) (fun _ => 0) ⟨0, 0⟩ [⟨0, 0⟩]).elevationData.length =
      ([⟨0, 0⟩] : List Location).length :=
  ⟨by decide,
    (fetchElevationData_total
      (fun _ b => BatchResponse.ok (b.map fun p => ⟨p.longitude, p.latitude, 5⟩))
      (fun _ => 0) (fun _ => 0) ⟨0, 0⟩ [⟨0, 0⟩] (by decide)
      (fun k b rs h => by
        cases h
        simp)).1⟩

/-- C4 counterexample: with a single batch the trace still ends with a
100 ms delay event, so the delay is not only between batches. -/
theorem fetchTrace_delay_after_last :
    (chunksOf BATCH_SIZE [(⟨0, 0⟩ : Location)]).length = 1 ∧
    fetchTrace (fun _ _ => BatchResponse.ok []) [⟨0, 0⟩] =
      [FetchEvent.request [⟨0, 0⟩], FetchEvent.delay 100] := by
  have hch : chunksOf BATCH_SIZE [(⟨0, 0⟩ : Location)] = [[⟨0, 0⟩]] := by
    rw [chunksOf.eq_def]
    simp only [List.take_nil, List.drop_nil]
    rw [chunksOf.eq_def]
  constructor
  · rw [hch]
    rfl
  · rw [fetchTrace, hch]
    rfl

/-- C4 (amended: the 100 ms delay follows every successfully processed
batch, including the last): consecutive batches of at most 100, one
request per batch in order, results accumulated in request order, abort
with the fetch-failed fallback on the first non-success response. -/
theorem fetchTrace_batching (svc : ℕ → List Location → BatchResponse)
    (msin mcos : ℚ → ℚ) (c : Centroid) (gps : List Location) :
    (chunksOf BATCH_SIZE gps).flatten = gps ∧
    (∀ b ∈ chunksOf BATCH_SIZE gps, b ≠ [] ∧ b.length ≤ BATCH_SIZE) ∧
    ((∀ k, k < (chunksOf BATCH_SIZE gps).length →
        respOk (svc k ((chunksOf BATCH_SIZE gps).getD k [])) = true) →
      fetchTrace svc gps =
        ((chunksOf BATCH_SIZE gps).map
          (fun b => [FetchEvent.request b, FetchEvent.delay 100])).flatten ∧
      fetchElevationData svc msin mcos c gps =
        ⟨(((chunksOf BATCH_SIZE gps).enum.map
            fun p => respResults (svc p.1 p.2)).flatten), none⟩) ∧
    (∀ j, j < (chunksOf BATCH_SIZE gps).length →
      (∀ k, k < j → respOk (svc k ((chunksOf BATCH_SIZE gps).getD k [])) = true) →
      respOk (svc j ((chunksOf BATCH_SIZE gps).getD j [])) = false →
      fetchTrace svc gps =
        (((chunksOf BATCH_SIZE gps).take j).map
          (fun b => [FetchEvent.request b, FetchEvent.delay 100])).flatten
          ++ [FetchEvent.request ((chunksOf BATCH_SIZE gps).getD j [])] ∧
      fetchElevationData svc msin mcos c gps =
        ⟨simulatedData msin mcos c gps, some fetchErrorMessage⟩) := by
  refine ⟨chunksOf_flatten BATCH_SIZE gps,
    chunksOf_mem BATCH_SIZE (by simp [BATCH_SIZE]) gps, ?_, ?_⟩
  · intro hok
    have h := processBatches_all_ok svc (chunksOf BATCH_SIZE gps) 0
      (by simpa using hok)
    constructor
    · rw [fetchTrace, h]
    · rw [fetchElevationData, h]
      simp [List.enum]
  · intro j hj hok hfail
    have h := processBatches_first_fail svc (chunksOf BATCH_SIZE gps) 0 j hj
      (by simpa using hok) (by simpa using hfail)
    constructor
    · rw [fetchTrace, h]
    · rw [fetchElevationData, h]

/-- Witness for C4: all-success run on a one-point grid. -/
theorem fetchTrace_batching_witness :
    (chunksOf BATCH_SIZE [(⟨0, 0⟩ : Location)]).flatten = [⟨0, 0⟩] ∧
    fetchTrace (fun _ _ => BatchResponse.ok [⟨1, 2, 3⟩]) [⟨0, 0⟩] =
      ((chunksOf BATCH_SIZE [(⟨0, 0⟩ : Location)]).map
        (fun b => [FetchEvent.request b, FetchEvent.delay 100])).flatten := by
  have h := fetchTrace_batching (fun _ _ => BatchResponse.ok [⟨1, 2, 3⟩])
    (fun _ => 0) (fun _ => 0) ⟨0, 0⟩ [⟨0, 0⟩]
  exact ⟨h.1, (h.2.2.1 (fun k hk => rfl)).1⟩

/-- C5: the fallback elevation of each sample equals the fixed three-term
sine/cosine formula of its projected local position, where x and y are
the longitude/latitude offsets from the centroid times the fixed scale
constant, and it depends on nothing but that projected position. -/
theorem simulatedData_formula (msin mcos : ℚ → ℚ) (c : Centroid) (gps : List Location)
    (i : ℕ) (hi : i < gps.length) :
    ((simulatedData msin mcos c gps).getD i ⟨0, 0, 0⟩).elevation =
      msin (((gps.getD i ⟨0, 0⟩).longitude - c.longitude) * 111320 * 0.005) *
        mcos (((gps.getD i ⟨0, 0⟩).latitude - c.latitude) * 111320 * 0.005) * 30 +
      msin (((gps.getD i ⟨0, 0⟩).longitude - c.longitude) * 111320 * 0.02) *
        mcos (((gps.getD i ⟨0, 0⟩).latitude - c.latitude) * 111320 * 0.02) * 10 +
      msin (((gps.getD i ⟨0, 0⟩).longitude - c.longitude) * 111320 * 0.05) *
        mcos (((gps.getD i ⟨0, 0⟩).latitude - c.latitude) * 111320 * 0.05) * 5 ∧
    (∀ p q : Location,
      (p.longitude - c.longitude) * 111320 = (q.longitude - c.longitude) * 111320 →
      (p.latitude - c.latitude) * 111320 = (q.latitude - c.latitude) * 111320 →
      simulatedElevation msin mcos ((p.longitude - c.longitude) * 111320)
          ((p.latitude - c.latitude) * 111320) =
        simulatedElevation msin mcos ((q.longitude - c.longitude) * 111320)
          ((q.latitude - c.latitude) * 111320)) := by
  constructor
  · have hlen : i < (simulatedData msin mcos c gps).length := by
      simpa [simulatedData] using hi
    rw [List.getD_eq_getElem _ _ hlen, List.getD_eq_getElem _ _ hi]
    simp [simulatedData, simulatedElevation]
  · intro p q h1 h2
    rw [simulatedElevation, simulatedElevation, h1, h2]

/-- Witness for C5 at a one-point grid with identity trig stubs. -/
theorem simulatedData_formula_witness :
    (0 < ([⟨0, 0⟩] : List Location).length) ∧
    ((simulatedData id id ⟨0, 0⟩ [⟨0, 0⟩]).getD 0 ⟨0, 0, 0⟩).elevation =
      id ((((⟨0, 0⟩ : Location).longitude - (0 : ℚ)) * 111320) * 0.005) *
        id ((((⟨0, 0⟩ : Location).latitude - (0 : ℚ)) * 111320) * 0.005) * 30 +
      id ((((⟨0, 0⟩ : Location).longitude - (0 : ℚ)) * 111320) * 0.02) *
        id ((((⟨0, 0⟩ : Location).latitude - (0 : ℚ)) * 111320) * 0.02) * 10 +
      id ((((⟨0, 0⟩ : Location).longitude - (0 : ℚ)) * 111320) * 0.05) *
        id ((((⟨0, 0⟩ : Location).latitude - (0 : ℚ)) * 111320) * 0.05) * 5 :=
  ⟨by decide, (simulatedData_formula id id ⟨0, 0⟩ [⟨0, 0⟩] 0 (by decide)).1⟩

/-- C9: the completion handler stores results unconditionally, with no
request token or staleness check, so when a stale resolve (outA, results
elevation 1) completes after the newer resolve (outB, results elevation
2), the stale results are the ones ultimately observed, and they differ
from the newer results: last-completion-wins instead of the required
newest-invocation-wins. -/
theorem staleResolve_overwrites :
    (setElevationData
      (setElevationData ⟨[], none⟩
        (fetchElevationData (fun _ _ => BatchResponse.ok [⟨0, 0, 2⟩])
          (fun _ => 0) (fun _ => 0) ⟨0, 0⟩ [⟨0, 0⟩]).elevationData)
      (fetchElevationData (fun _ _ => BatchResponse.ok [⟨0, 0, 1⟩])
        (fun _ => 0) (fun _ => 0) ⟨0, 0⟩ [⟨0, 0⟩]).elevationData).elevationData =
      (fetchElevationData (fun _ _ => BatchResponse.ok [⟨0, 0, 1⟩])
        (fun _ => 0) (fun _ => 0) ⟨0, 0⟩ [⟨0, 0⟩]).elevationData ∧
    (fetchElevationData (fun _ _ => BatchResponse.ok [⟨0, 0, 1⟩])
        (fun _ => 0) (fun _ => 0) ⟨0, 0⟩ [⟨0, 0⟩]).elevationData ≠
      (fetchElevationData (fun _ _ => BatchResponse.ok [⟨0, 0, 2⟩])
        (fun _ => 0) (fun _ => 0) ⟨0, 0⟩ [⟨0, 0⟩]).elevationData := by
  have hch : chunksOf BATCH_SIZE [(⟨0, 0⟩ : Location)] = [[⟨0, 0⟩]] := by
    rw [chunksOf.eq_def]
    simp only [List.take_nil, List.drop_nil]
    rw [chunksOf.eq_def]
  constructor
  · rfl
  · simp only [fetchElevationData, hch, processBatches]
    decide
